import Mathlib

/-!
Shallow embedding of the my-todo-front application (React/TypeScript) for
verification of its specification.  The data model follows
`src/types/todo.ts`; the application-shell handlers follow the `TodoApp`
component of `App.tsx` (the variant with labels); `addTodoHandler` follows
`components/TodoForm.tsx`; `onUpdate` follows the in-memory variant of
`App.tsx`.  Asynchronous handlers are modelled as pure functions from the
current cached state (plus the server's response, where one is consumed) to
the list of API requests issued together with the new cached state.
-/

namespace TodoApp

/-- `Label` from `src/types/todo.ts`: `{ id: number, name: string }`. -/
structure Label where
  id : Int
  name : String
deriving DecidableEq, Repr

/-- `Todo` from `src/types/todo.ts`:
`{ id: number, text: string, completed: boolean, labels: Label[] }`. -/
structure Todo where
  id : Int
  text : String
  completed : Bool
  labels : List Label
deriving DecidableEq, Repr

/-- `NewTodoPayload` as actually emitted at runtime by `addTodoHandler` in
`TodoForm.tsx`: the `labels` field is built as `editLabels.map((label) =>
label.id)`, an array of numeric label ids.  (The type annotation in
`src/types/todo.ts` writes `labels: Label[]`, but the runtime value the
form emits is the id array; the embedding follows the runtime value.) -/
structure NewTodoPayload where
  text : String
  labels : List Int
deriving DecidableEq, Repr

/-- `NewLabelPayload` from `src/types/todo.ts`: `{ name: string }`. -/
structure NewLabelPayload where
  name : String
deriving DecidableEq, Repr

/-- `UpdateTodoPayload` from `src/types/todo.ts`:
`Partial<Omit<Todo, 'id'>> & { id: number }` — every field of `Todo` made
optional except the mandatory `id`. -/
structure UpdateTodoPayload where
  id : Int
  text : Option String
  completed : Option Bool
  labels : Option (List Label)
deriving DecidableEq, Repr

/-- One HTTP request issued through the API client
(`lib/api/todo.ts` / `lib/api/label.ts`). -/
inductive ApiRequest where
  | addTodo (payload : NewTodoPayload)
  | getTodos
  | updateTodo (payload : UpdateTodoPayload)
  | deleteTodo (id : Int)
  | addLabel (payload : NewLabelPayload)
  | getLabels
  | deleteLabel (id : Int)
deriving DecidableEq, Repr

/-- The state owned by the `TodoApp` application shell: `todos`, `labels`
and `filterLabelId : number | null` (`none` models `null`). -/
structure AppState where
  todos : List Todo
  labels : List Label
  filterLabelId : Option Int
deriving DecidableEq, Repr

/-- The local state of the `TodoForm` component: draft text `editText` and
draft label selection `editLabels`. -/
structure FormState where
  editText : String
  editLabels : List Label
deriving DecidableEq, Repr

/-- `dispTodo` from `App.tsx`:
`filterLabelId ? todos.filter((todo) => todo.labels.some((label) =>
label.id === filterLabelId)) : todos`.
The conditional tests JavaScript truthiness of `filterLabelId : number |
null`, so both `null` (here `none`) and the number `0` (here `some 0`)
select the unfiltered branch. -/
def dispTodo (todos : List Todo) (filterLabelId : Option Int) : List Todo :=
  match filterLabelId with
  | none => todos
  | some k =>
      if k ≠ 0 then
        todos.filter (fun todo => todo.labels.any (fun label => label.id == k))
      else todos

/-- `onSubmit` from `App.tsx`:
`if (!payload.text) return; await addTodoItem(payload); const todos = await
getTodoItems(); setTodos(todos)`.
`!payload.text` is the JavaScript falsiness test on a string, true exactly
for the empty string.  `fetched` is the list the server returns for the
follow-up `getTodoItems` call; the result is the list of requests issued
and the new cached todo list. -/
def onSubmit (todos : List Todo) (payload : NewTodoPayload)
    (fetched : List Todo) : List ApiRequest × List Todo :=
  if payload.text = "" then ([], todos)
  else ([ApiRequest.addTodo payload, ApiRequest.getTodos], fetched)

/-- `onSubmitNewLabel` from `App.tsx`:
`if (!labels.some((label) => label.name === newLabel.name)) { const res =
await addLabelItem(newLabel); setLabels([...labels, res]) }`.
`res` is the `Label` the server returns for `addLabelItem`. -/
def onSubmitNewLabel (labels : List Label) (newLabel : NewLabelPayload)
    (res : Label) : List ApiRequest × List Label :=
  if labels.any (fun label => label.name == newLabel.name) then ([], labels)
  else ([ApiRequest.addLabel newLabel], labels ++ [res])

/-- `onDeleteLabel` from `App.tsx`:
`await deleteLabelItem(id); setLabels((prev) => prev.filter((label) =>
label.id !== id))`.  It touches only the label state. -/
def onDeleteLabel (s : AppState) (id : Int) : List ApiRequest × AppState :=
  ([ApiRequest.deleteLabel id],
   { s with labels := s.labels.filter (fun label => label.id != id) })

/-- `addTodoHandler` from `components/TodoForm.tsx`:
`if (!editText) return; onSubmit({ text: editText, labels:
editLabels.map((label) => label.id) }); setEditText('')`.
The first component is the payload passed upward to `onSubmit` (`none`
when the handler returns early), the second the form state afterwards.
Note the handler resets `editText` only; `editLabels` is not touched. -/
def addTodoHandler (s : FormState) : Option NewTodoPayload × FormState :=
  if s.editText = "" then (none, s)
  else
    (some { text := s.editText, labels := s.editLabels.map Label.id },
     { s with editText := "" })

/-- The object spread `{ ...todo, ...updateTodo }` from `onUpdate` in
`App.tsx` (in-memory variant): every field present in `updateTodo`
overrides the one of `todo`; absent optional fields keep `todo`'s value.
`id` is mandatory in `UpdateTodoPayload`, so it always overrides. -/
def spreadUpdate (todo : Todo) (u : UpdateTodoPayload) : Todo :=
  { id := u.id
    text := u.text.getD todo.text
    completed := u.completed.getD todo.completed
    labels := u.labels.getD todo.labels }

/-- `onUpdate` from `App.tsx` (in-memory variant):
`setTodos(todos.map((todo) => todo.id === updateTodo.id ? { ...todo,
...updateTodo } : todo))`. -/
def onUpdate (todos : List Todo) (u : UpdateTodoPayload) : List Todo :=
  todos.map (fun todo => if todo.id == u.id then spreadUpdate todo u else todo)

/-- Modelled from the spec: the file implementing `toggleLabels`
(`src/lib/toggleLabels.ts`) is not among the provided sources — only its
caller in `components/TodoForm.tsx` is.  Per the spec, toggling a label in
the modal adds it to the draft selection when it is absent and removes it
when it is present (no duplicates); labels are identified by `id`. -/
def toggleLabels (labels : List Label) (target : Label) : List Label :=
  if labels.any (fun label => label.id == target.id) then
    labels.filter (fun label => label.id != target.id)
  else labels ++ [target]

/-- C1 counterexample: with the active filter set to the label with id 0,
`dispTodo` shows the full cached list, not the subsequence of todos whose
labels contain id 0.  Concretely, with one cached todo carrying no labels
at all, the claim would display the empty list, but `dispTodo` displays
the todo. -/
theorem dispTodo_claim_fails_at_id_zero :
    ¬ (dispTodo [⟨1, "a", false, []⟩] (some 0) =
        List.filter
          (fun todo => todo.labels.any (fun label => label.id == 0))
          [⟨1, "a", false, []⟩]) := by
  decide

/-- C1 (amended): for every cached todo list and every active filter label
id `k` with `k ≠ 0`, the displayed sequence `dispTodo` equals the
subsequence of cached todos whose labels contain a label with id `k`, in
cache order; when the active filter is `none`, the displayed sequence is
the full cached list. -/
theorem dispTodo_filters_by_label_id (todos : List Todo) (k : Int)
    (hk : k ≠ 0) :
    dispTodo todos (some k) =
      todos.filter (fun todo => todo.labels.any (fun label => label.id == k)) ∧
    dispTodo todos none = todos := by
  refine ⟨?_, rfl⟩
  simp [dispTodo, hk]

/-- Witness for C1's amended theorem at filter id 3 over a two-todo cache:
only the todo labelled 3 is displayed; with no filter both are. -/
theorem dispTodo_filters_by_label_id_witness :
    dispTodo [⟨1, "a", false, [⟨3, "x"⟩]⟩, ⟨2, "b", false, []⟩] (some 3) =
      List.filter
        (fun todo => todo.labels.any (fun label => label.id == 3))
        [⟨1, "a", false, [⟨3, "x"⟩]⟩, ⟨2, "b", false, []⟩] ∧
    dispTodo [⟨1, "a", false, [⟨3, "x"⟩]⟩, ⟨2, "b", false, []⟩] none =
      [⟨1, "a", false, [⟨3, "x"⟩]⟩, ⟨2, "b", false, []⟩] :=
  dispTodo_filters_by_label_id
    [⟨1, "a", false, [⟨3, "x"⟩]⟩, ⟨2, "b", false, []⟩] 3 (by decide)

/-- C10: selecting the label with id 0 as the active filter displays the
full cached todo sequence, because the derived view tests the filter id
for JavaScript truthiness (0 is falsy) rather than for non-null; for some
cache this differs from the label-filtered subsequence. -/
theorem dispTodo_id_zero_shows_all (todos : List Todo) :
    dispTodo todos (some 0) = todos ∧
    ∃ ts : List Todo,
      dispTodo ts (some 0) ≠
        ts.filter (fun todo => todo.labels.any (fun label => label.id == 0)) := by
  refine ⟨rfl, [⟨1, "a", false, []⟩], ?_⟩
  decide

/-- C2: an empty draft text produces no creation request and no state
change anywhere: `addTodoHandler` emits no payload and leaves the form
state unchanged, and the shell's `onSubmit`, given a payload with empty
text, issues no API request and leaves the cached todo list unchanged. -/
theorem empty_text_no_request (s : FormState) (todos fetched : List Todo)
    (payload : NewTodoPayload) (hs : s.editText = "")
    (hp : payload.text = "") :
    addTodoHandler s = (none, s) ∧ onSubmit todos payload fetched = ([], todos) := by
  constructor
  · simp [addTodoHandler, hs]
  · simp [onSubmit, hp]

/-- Witness for C2: a concrete empty-text form state and payload. -/
theorem empty_text_no_request_witness :
    addTodoHandler ⟨"", [⟨1, "home"⟩]⟩ = (none, ⟨"", [⟨1, "home"⟩]⟩) ∧
    onSubmit [⟨1, "t", false, []⟩] ⟨"", [1, 2]⟩ [] =
      ([], [⟨1, "t", false, []⟩]) :=
  empty_text_no_request ⟨"", [⟨1, "home"⟩]⟩ [⟨1, "t", false, []⟩] []
    ⟨"", [1, 2]⟩ rfl rfl

/-- C3: for every submission with non-empty text `t` and selected label
ids `ids`, the shell's `onSubmit` issues exactly the two requests
`[addTodo {text := t, labels := ids}, getTodos]` — one creation request
with that payload followed by one full-list fetch, and nothing else — and
the cached todo state is replaced wholesale by the fetched list. -/
theorem submit_nonempty_one_request (todos fetched : List Todo) (t : String)
    (ids : List Int) (ht : t ≠ "") :
    onSubmit todos ⟨t, ids⟩ fetched =
      ([ApiRequest.addTodo ⟨t, ids⟩, ApiRequest.getTodos], fetched) := by
  simp [onSubmit, ht]

/-- Witness for C3 at the spec's example: text "Buy milk", label ids
[1, 2]. -/
theorem submit_nonempty_one_request_witness :
    onSubmit [] ⟨"Buy milk", [1, 2]⟩ [⟨1, "Buy milk", false, []⟩] =
      ([ApiRequest.addTodo ⟨"Buy milk", [1, 2]⟩, ApiRequest.getTodos],
       [⟨1, "Buy milk", false, []⟩]) :=
  submit_nonempty_one_request [] [⟨1, "Buy milk", false, []⟩] "Buy milk"
    [1, 2] (by decide)

/-- C4: if some cached label already bears the submitted name,
`onSubmitNewLabel` issues no request and leaves the label state unchanged;
otherwise it issues exactly one creation request and the new label state
is the old collection with the server-returned label appended at the
end. -/
theorem add_label_dedup (labels : List Label) (p : NewLabelPayload)
    (res : Label) :
    ((∃ label ∈ labels, label.name = p.name) →
       onSubmitNewLabel labels p res = ([], labels)) ∧
    ((∀ label ∈ labels, label.name ≠ p.name) →
       onSubmitNewLabel labels p res =
         ([ApiRequest.addLabel p], labels ++ [res])) := by
  constructor
  · intro h
    have hany : labels.any (fun label => label.name == p.name) = true := by
      simpa [List.any_eq_true] using h
    simp [onSubmitNewLabel, hany]
  · intro h
    have hany : labels.any (fun label => label.name == p.name) = false := by
      simpa [List.any_eq_false] using h
    simp [onSubmitNewLabel, hany]

/-- Witness for C4: duplicate name "home" is rejected without a request;
fresh name "work" issues one request and is appended. -/
theorem add_label_dedup_witness :
    onSubmitNewLabel [⟨1, "home"⟩] ⟨"home"⟩ ⟨9, "home"⟩ = ([], [⟨1, "home"⟩]) ∧
    onSubmitNewLabel [⟨1, "home"⟩] ⟨"work"⟩ ⟨2, "work"⟩ =
      ([ApiRequest.addLabel ⟨"work"⟩], [⟨1, "home"⟩, ⟨2, "work"⟩]) :=
  ⟨(add_label_dedup [⟨1, "home"⟩] ⟨"home"⟩ ⟨9, "home"⟩).1
      ⟨⟨1, "home"⟩, by decide, rfl⟩,
   (add_label_dedup [⟨1, "home"⟩] ⟨"work"⟩ ⟨2, "work"⟩).2 (by decide)⟩

/-- C5: `onDeleteLabel` issues exactly one delete request (in particular
no todo fetch); the resulting label state keeps exactly the labels whose
id differs from the deleted id, each unchanged and in its original
relative order (a sublist of the old collection); the cached todo list and
the active filter are untouched. -/
theorem delete_label_frame (s : AppState) (k : Int) :
    (onDeleteLabel s k).1 = [ApiRequest.deleteLabel k] ∧
    ApiRequest.getTodos ∉ (onDeleteLabel s k).1 ∧
    (onDeleteLabel s k).2.labels =
      s.labels.filter (fun label => label.id != k) ∧
    (∀ label, label ∈ (onDeleteLabel s k).2.labels ↔
       label ∈ s.labels ∧ label.id ≠ k) ∧
    (onDeleteLabel s k).2.labels.Sublist s.labels ∧
    (onDeleteLabel s k).2.todos = s.todos ∧
    (onDeleteLabel s k).2.filterLabelId = s.filterLabelId := by
  refine ⟨rfl, by simp [onDeleteLabel], rfl, ?_, ?_, rfl, rfl⟩
  · intro label
    simp [onDeleteLabel, List.mem_filter]
  · exact List.filter_sublist s.labels

/-- C6 counterexample: the claim says the whole draft is cleared after a
submit, but `addTodoHandler` only resets the text; on a form state with a
selected label the selection survives, so the draft selection is not
empty afterwards. -/
theorem clear_draft_counterexample :
    ¬ ((addTodoHandler ⟨"a", [⟨1, "home"⟩]⟩).2.editText = "" ∧
       (addTodoHandler ⟨"a", [⟨1, "home"⟩]⟩).2.editLabels = []) := by
  decide

/-- C6 (amended): after the submit handler runs on a non-empty draft text,
the draft text becomes the empty string, but the draft label selection is
left unchanged (it is not cleared). -/
theorem submit_clears_text_only (s : FormState) (h : s.editText ≠ "") :
    (addTodoHandler s).2.editText = "" ∧
    (addTodoHandler s).2.editLabels = s.editLabels := by
  simp [addTodoHandler, h]

/-- Witness for C6's amended theorem on a concrete non-empty draft. -/
theorem submit_clears_text_only_witness :
    (addTodoHandler ⟨"a", [⟨1, "home"⟩]⟩).2.editText = "" ∧
    (addTodoHandler ⟨"a", [⟨1, "home"⟩]⟩).2.editLabels = [⟨1, "home"⟩] :=
  submit_clears_text_only ⟨"a", [⟨1, "home"⟩]⟩ (by decide)

/-- C7: on every submission with non-empty draft text the payload emitted
by `addTodoHandler` carries, in its `labels` field, exactly the ids of the
currently selected draft labels in selection order — numbers, not full
`Label` objects. -/
theorem payload_labels_are_ids (s : FormState) (h : s.editText ≠ "") :
    (addTodoHandler s).1 =
      some { text := s.editText, labels := s.editLabels.map Label.id } := by
  simp [addTodoHandler, h]

/-- Witness for C7: selecting labels with ids 1 and 2 emits the id list
[1, 2]. -/
theorem payload_labels_are_ids_witness :
    (addTodoHandler ⟨"Buy milk", [⟨1, "home"⟩, ⟨2, "work"⟩]⟩).1 =
      some { text := "Buy milk",
             labels := List.map Label.id [⟨1, "home"⟩, ⟨2, "work"⟩] } :=
  payload_labels_are_ids ⟨"Buy milk", [⟨1, "home"⟩, ⟨2, "work"⟩]⟩ (by decide)

/-- C8: `onUpdate` changes only the todo whose id matches the payload's
id, and there only the provided fields: at every position of the old list,
a todo with a different id is returned unchanged, and the matching todo
keeps its id and keeps each field for which the payload provides nothing,
while fields the payload provides take the payload's value. -/
theorem update_only_matching_and_provided (todos : List Todo)
    (u : UpdateTodoPayload) (i : Nat) (todo : Todo)
    (h : todos[i]? = some todo) :
    (todo.id ≠ u.id → (onUpdate todos u)[i]? = some todo) ∧
    (todo.id = u.id →
      (onUpdate todos u)[i]? = some
        { id := todo.id
          text := u.text.getD todo.text
          completed := u.completed.getD todo.completed
          labels := u.labels.getD todo.labels }) := by
  constructor
  · intro hne
    simp [onUpdate, List.getElem?_map, h, hne]
  · intro heq
    simp [onUpdate, List.getElem?_map, h, spreadUpdate, heq]

/-- Witness for C8: updating id 2's text leaves the todo at position 0
(id 1) unchanged and changes only the text of the todo at position 1. -/
theorem update_only_matching_and_provided_witness :
    ((onUpdate [⟨1, "a", false, []⟩, ⟨2, "b", true, [⟨3, "x"⟩]⟩]
        ⟨2, some "c", none, none⟩)[0]? = some ⟨1, "a", false, []⟩) ∧
    ((onUpdate [⟨1, "a", false, []⟩, ⟨2, "b", true, [⟨3, "x"⟩]⟩]
        ⟨2, some "c", none, none⟩)[1]? = some ⟨2, "c", true, [⟨3, "x"⟩]⟩) :=
  ⟨(update_only_matching_and_provided
      [⟨1, "a", false, []⟩, ⟨2, "b", true, [⟨3, "x"⟩]⟩]
      ⟨2, some "c", none, none⟩ 0 ⟨1, "a", false, []⟩ rfl).1 (by decide),
   (update_only_matching_and_provided
      [⟨1, "a", false, []⟩, ⟨2, "b", true, [⟨3, "x"⟩]⟩]
      ⟨2, some "c", none, none⟩ 1 ⟨2, "b", true, [⟨3, "x"⟩]⟩ rfl).2 rfl⟩

/-- Filtering out a label id that occurs nowhere in the list keeps the
list intact. -/
lemma filter_ne_id_eq_self (labels : List Label) (k : Int)
    (h : ∀ l ∈ labels, l.id ≠ k) :
    labels.filter (fun l => l.id != k) = labels := by
  rw [List.filter_eq_self]
  intro l hl
  simpa using h l hl

/-- Removing the (unique, by id-nodup) occurrence of `L` from a selection
and appending it at the end permutes the original selection. -/
lemma filter_ne_append_perm (prev : List Label) (L : Label)
    (hnd : (prev.map Label.id).Nodup) (hmem : L ∈ prev) :
    (prev.filter (fun l => l.id != L.id) ++ [L]).Perm prev := by
  induction prev with
  | nil => cases hmem
  | cons x xs ih =>
      rw [List.map_cons, List.nodup_cons] at hnd
      by_cases hx : x.id = L.id
      · have hxs : ∀ l ∈ xs, l.id ≠ L.id := by
          intro l hl hlid
          exact hnd.1 (hx ▸ hlid ▸ List.mem_map_of_mem Label.id hl)
        have hxL : x = L := by
          rcases List.mem_cons.mp hmem with h | h
          · exact h.symm
          · exact absurd rfl (hxs L h)
        have hfx : (x.id != L.id) = false := by simpa using hx
        have hfilter : List.filter (fun l => l.id != L.id) (x :: xs) = xs := by
          simp [List.filter_cons, hfx, filter_ne_id_eq_self xs L.id hxs]
        rw [hfilter, hxL]
        exact List.perm_append_singleton L xs
      · have hLxs : L ∈ xs := by
          rcases List.mem_cons.mp hmem with h | h
          · exact absurd (congrArg Label.id h.symm) hx
          · exact h
        have hfx : (x.id != L.id) = true := by simpa using hx
        have hfilter : List.filter (fun l => l.id != L.id) (x :: xs) =
            x :: List.filter (fun l => l.id != L.id) xs := by
          simp [List.filter_cons, hfx]
        rw [hfilter, List.cons_append]
        exact (ih hnd.2 hLxs).cons x

/-- C9 counterexample: over the spec-modelled `toggleLabels`, toggling the
same label twice does not restore the original selection as a sequence:
starting from the duplicate-free selection [label 1, label 2] and toggling
label 1 twice yields [label 2, label 1], which differs from the
original. -/
theorem toggle_twice_counterexample :
    ¬ (toggleLabels (toggleLabels [⟨1, "a"⟩, ⟨2, "b"⟩] ⟨1, "a"⟩) ⟨1, "a"⟩ =
        [⟨1, "a"⟩, ⟨2, "b"⟩]) := by
  decide

/-- C9 (amended): over a draft selection whose label ids are
duplicate-free, toggling a label `L` appends it when no selected label
bears its id and removes every label bearing its id when one does, so the
selection never contains duplicate ids; and — provided selected labels
with `L`'s id are `L` itself, as in the modal, which toggles the very
objects it lists — toggling `L` twice restores the original selection up
to order (a permutation, not necessarily the same sequence). -/
theorem toggleLabels_spec (prev : List Label) (L : Label)
    (hnd : (prev.map Label.id).Nodup) :
    ((∀ l ∈ prev, l.id ≠ L.id) → toggleLabels prev L = prev ++ [L]) ∧
    ((∃ l ∈ prev, l.id = L.id) →
       toggleLabels prev L = prev.filter (fun l => l.id != L.id) ∧
       ∀ l ∈ toggleLabels prev L, l.id ≠ L.id) ∧
    ((toggleLabels prev L).map Label.id).Nodup ∧
    ((∀ l ∈ prev, l.id = L.id → l = L) →
       (toggleLabels (toggleLabels prev L) L).Perm prev) := by
  refine ⟨?_, ?_, ?_, ?_⟩
  · intro h
    have hany : (prev.any fun label => label.id == L.id) = false := by
      simpa [List.any_eq_false] using h
    simp [toggleLabels, hany]
  · intro h
    have hany : (prev.any fun label => label.id == L.id) = true := by
      simpa [List.any_eq_true] using h
    refine ⟨by simp [toggleLabels, hany], ?_⟩
    intro l hl
    simp only [toggleLabels, hany, if_true] at hl
    simpa using (List.mem_filter.mp hl).2
  · by_cases hany : (prev.any fun label => label.id == L.id) = true
    · have hsub : ((prev.filter fun l => l.id != L.id).map Label.id).Sublist
          (prev.map Label.id) :=
        (List.filter_sublist prev).map Label.id
      simpa [toggleLabels, hany] using hsub.nodup hnd
    · rw [Bool.not_eq_true] at hany
      have hnot : ∀ l ∈ prev, l.id ≠ L.id := by
        simpa [List.any_eq_false] using hany
      have hLnot : L.id ∉ prev.map Label.id := by
        intro hmem
        rcases List.mem_map.mp hmem with ⟨l, hl, hlid⟩
        exact hnot l hl hlid
      simp [toggleLabels, hany, List.nodup_append, hnd, hLnot]
  · intro hcoh
    by_cases hany : (prev.any fun label => label.id == L.id) = true
    · rcases List.any_eq_true.mp hany with ⟨l0, hl0, hid0⟩
      have hL : L ∈ prev := hcoh l0 hl0 (by simpa using hid0) ▸ hl0
      have hstep1 : toggleLabels prev L = prev.filter fun l => l.id != L.id := by
        simp [toggleLabels, hany]
      have hnone : ((prev.filter fun l => l.id != L.id).any
          fun label => label.id == L.id) = false := by
        rw [List.any_eq_false]
        intro l hl
        simpa using (List.mem_filter.mp hl).2
      rw [hstep1]
      rw [show toggleLabels (prev.filter fun l => l.id != L.id) L =
          (prev.filter fun l => l.id != L.id) ++ [L] by
        simp [toggleLabels, hnone]]
      exact filter_ne_append_perm prev L hnd hL
    · rw [Bool.not_eq_true] at hany
      have hnot : ∀ l ∈ prev, l.id ≠ L.id := by
        simpa [List.any_eq_false] using hany
      have hstep1 : toggleLabels prev L = prev ++ [L] := by
        simp [toggleLabels, hany]
      have hsome : ((prev ++ [L]).any fun label => label.id == L.id) = true := by
        simp [List.any_append]
      rw [hstep1]
      rw [show toggleLabels (prev ++ [L]) L =
          (prev ++ [L]).filter fun l => l.id != L.id by
        simp [toggleLabels, hsome]]
      rw [List.filter_append, filter_ne_id_eq_self prev L.id hnot]
      simp

/-- Witness for C9's amended theorem: toggling label 1 twice on the
selection [label 1, label 2] permutes the original selection. -/
theorem toggleLabels_spec_witness :
    (toggleLabels (toggleLabels [⟨1, "a"⟩, ⟨2, "b"⟩] ⟨1, "a"⟩) ⟨1, "a"⟩).Perm
      [⟨1, "a"⟩, ⟨2, "b"⟩] :=
  (toggleLabels_spec [⟨1, "a"⟩, ⟨2, "b"⟩] ⟨1, "a"⟩ (by decide)).2.2.2
    (by decide)

end TodoApp
